import Mathlib

set_option maxRecDepth 20000

/-!
Verification development for the travel-itinerary planner (`app.py`).

Strings are modelled as `List Char`; Python string operations
(`strip`, `split`, `replace`, `int(...)`, substring membership) are
embedded as structurally recursive Lean functions so that every
definition evaluates inside the kernel.
-/

/-- Whitespace characters removed by Python `str.strip()` (ASCII subset). -/
def isPySpace (c : Char) : Bool :=
  c == ' ' || c == '\t' || c == '\n' || c == '\r' ||
  c == Char.ofNat 11 || c == Char.ofNat 12

/-- Python `s.strip()`: drop leading and trailing whitespace. -/
def pyStrip (s : List Char) : List Char :=
  ((s.dropWhile isPySpace).reverse.dropWhile isPySpace).reverse

/-- Python `pat in s` (substring containment) for a nonempty pattern. -/
def containsSub (pat : List Char) : List Char → Bool
  | [] => pat.isPrefixOf []
  | c :: rest => pat.isPrefixOf (c :: rest) || containsSub pat rest

/-- Prepend a character to the first segment of a split result. -/
def consHead (c : Char) : List (List Char) → List (List Char)
  | [] => [[c]]
  | h :: t => (c :: h) :: t

/-- Worker for `pySplit`: `skip` counts pattern characters still to be
consumed after a match of the pattern. -/
def pySplitAux (pat : List Char) : Nat → List Char → List (List Char)
  | _, [] => [[]]
  | skip+1, _ :: rest => pySplitAux pat skip rest
  | 0, c :: rest =>
    if pat.isPrefixOf (c :: rest) then
      [] :: pySplitAux pat (pat.length - 1) rest
    else
      consHead c (pySplitAux pat 0 rest)

/-- Python `s.split(pat)` for a nonempty separator `pat`: every
non-overlapping occurrence, scanned left to right, separates segments. -/
def pySplit (pat : List Char) (s : List Char) : List (List Char) :=
  pySplitAux pat 0 s

/-- Python `s.split(pat, 1)` given that `pat` occurs in `s`: the text
before the first occurrence paired with the text after it. -/
def splitFirst (pat : List Char) : List Char → List Char × List Char
  | [] => ([], [])
  | c :: rest =>
    if pat.isPrefixOf (c :: rest) then
      ([], rest.drop (pat.length - 1))
    else
      let r := splitFirst pat rest
      (c :: r.1, r.2)

/-- Worker for `pyReplace` (replacement by the empty string), with the
same `skip` discipline as `pySplitAux`. -/
def pyReplaceAux (pat : List Char) : Nat → List Char → List Char
  | _, [] => []
  | skip+1, _ :: rest => pyReplaceAux pat skip rest
  | 0, c :: rest =>
    if pat.isPrefixOf (c :: rest) then
      pyReplaceAux pat (pat.length - 1) rest
    else
      c :: pyReplaceAux pat 0 rest

/-- Python `s.replace(pat, "")` for a nonempty `pat`: removes every
non-overlapping occurrence, scanning left to right. -/
def pyReplace (pat : List Char) (s : List Char) : List Char :=
  pyReplaceAux pat 0 s

/-- Digit-sequence worker for Python `int(...)`: accepts digits with
single underscores between digits (`wasU` records a pending underscore). -/
def pyIntCore : Bool → Nat → List Char → Option Nat
  | false, acc, [] => some acc
  | true, _, [] => none
  | wasU, acc, c :: rest =>
    if c.isDigit then pyIntCore false (acc * 10 + (c.toNat - 48)) rest
    else if c == '_' && !wasU then pyIntCore true acc rest
    else none

/-- Unsigned part of Python `int(...)`: the first character must be a digit. -/
def pyNat (s : List Char) : Option Nat :=
  match s with
  | [] => none
  | c :: _ => if c.isDigit then pyIntCore false 0 s else none

/-- Python `int(s)` on a decimal string: strip whitespace, optional sign,
digits (underscores allowed between digits); `none` models `ValueError`. -/
def pyInt (s : List Char) : Option Int :=
  match pyStrip s with
  | '+' :: rest => (pyNat rest).map Int.ofNat
  | '-' :: rest => (pyNat rest).map (fun n => -(n : Int))
  | t => (pyNat t).map Int.ofNat

/-- Python `s.lower()` (ASCII case folding suffices for the cache keys). -/
def pyLower (s : List Char) : List Char :=
  s.map Char.toLower

/-- One scheduled item, as built by `extract_itinerary_data`
(dict with keys `name`, `hour`, `duration`, `description`, `location`). -/
structure Activity where
  name : List Char
  hour : Int
  duration : Nat
  description : List Char
  location : List Char
deriving DecidableEq

/-- The dict returned by `extract_itinerary_data`: an optional
`destination` entry plus the insertion-ordered `activities` dict
(day number → ordered activity list). -/
structure ItinData where
  destination : Option (List Char)
  activities : List (Int × List Activity)
deriving DecidableEq

/-- `day_num in data["activities"]`. -/
def hasDay (acts : List (Int × List Activity)) (d : Int) : Bool :=
  acts.any (fun p => p.1 == d)

/-- `if current_day not in data["activities"]: data["activities"][current_day] = []`. -/
def registerDay (data : ItinData) (d : Int) : ItinData :=
  if hasDay data.activities d then data
  else { data with activities := data.activities ++ [(d, [])] }

/-- `data["activities"].setdefault(current_day, []).append(a)`:
append to the entry for `d`, creating it at the end if absent. -/
def appendAct : List (Int × List Activity) → Int → Activity → List (Int × List Activity)
  | [], d, a => [(d, [a])]
  | (k, l) :: t, d, a =>
    if k == d then (k, l ++ [a]) :: t
    else (k, l) :: appendAct t d a

/-- Destination step of the extractor loop:
`if "Itinerary for" in line: parts = line.split("Itinerary for");
if len(parts) > 1: data["destination"] = parts[1].strip()`. -/
def destStep (data : ItinData) (line : List Char) : ItinData :=
  if containsSub "Itinerary for".data line then
    let parts := pySplit "Itinerary for".data line
    if parts.length > 1 then
      { data with destination := some (pyStrip (parts.getD 1 [])) }
    else data
  else data

/-- Day-heading parse: for a line starting with `## Day` or `# Day`,
`int(line.split("Day")[1].split(":")[0].strip())`; `none` models the
swallowed exception (`except: pass`) and non-heading lines. -/
def headingNum (line : List Char) : Option Int :=
  if "## Day".data.isPrefixOf line || "# Day".data.isPrefixOf line then
    pyInt (pyStrip ((pySplit ":".data ((pySplit "Day".data line).getD 1 [])).getD 0 []))
  else none

/-- Day step of the extractor loop: a successfully parsed heading sets
`current_day` and registers the day; otherwise nothing changes. -/
def dayStep (data : ItinData) (cur : Int) (line : List Char) : ItinData × Int :=
  match headingNum line with
  | some d => (registerDay data d, d)
  | none => (data, cur)

/-- Activity step of the extractor loop (lines 228-253 of `app.py`). -/
def actStep (data : ItinData) (cur : Int) (line : List Char) : ItinData :=
  if ("- ".data.isPrefixOf line || "* ".data.isPrefixOf line) && decide (0 < cur) then
    let activity_text := pyStrip (line.drop 2)
    if containsSub ":".data activity_text then
      let tp := splitFirst ":".data activity_text
      let time_part := tp.1
      let description := tp.2
      let hour : Int :=
        if containsSub "AM".data time_part || containsSub "PM".data time_part then
          let time_str := pyStrip time_part
          if containsSub "AM".data time_str then
            match pyInt ((pySplit ":".data (pyStrip ((pySplit "AM".data time_str).getD 0 []))).getD 0 []) with
            | some h => h
            | none => 9
          else if containsSub "PM".data time_str then
            match pyInt ((pySplit ":".data (pyStrip ((pySplit "PM".data time_str).getD 0 []))).getD 0 []) with
            | some h => h + 12
            | none => 9
          else 9
        else 9
      let a : Activity :=
        { name := pyStrip description, hour := hour, duration := 2,
          description := pyStrip description, location := data.destination.getD [] }
      { data with activities := appendAct data.activities cur a }
    else data
  else data

/-- One iteration of the extractor's `for line in lines` body: the three
`if` blocks run in source order on the same line. -/
def processLine (st : ItinData × Int) (line : List Char) : ItinData × Int :=
  let d1 := destStep st.1 line
  let r := dayStep d1 st.2 line
  (actStep r.1 r.2 line, r.2)

/-- `extract_itinerary_data(markdown_text)` from `app.py` lines 202-255:
single forward pass over `markdown_text.split('\n')` starting from
`data = {"activities": {}}` and `current_day = 0`. -/
def extract_itinerary_data (text : List Char) : ItinData :=
  ((pySplit "\n".data text).foldl processLine (⟨none, []⟩, 0)).1

/-- The ordered activity list recorded for day `k` (empty if absent). -/
def dayActs (d : ItinData) (k : Int) : List Activity :=
  (d.activities.lookup k).getD []

/-- All day numbers successfully parsed from day-heading lines, in order. -/
def headingDays (lines : List (List Char)) : List Int :=
  lines.filterMap headingNum

/-- The static `COMMON_QUERIES` table (`app.py` lines 114-119), in
definition order. -/
def COMMON_QUERIES : List (List Char × List Char) :=
  [ ("recommend restaurants".data,
     "Here are some top restaurant recommendations for your destination:\n\n1. **Local Cuisine** - Always try the regional specialties\n2. **High-rated places** - Check TripAdvisor or Google reviews\n3. **Street Food** - Often the most authentic experience\n4. **Fine Dining** - Make reservations in advance\n\nWould you like me to recommend specific restaurants based on your destination?".data),
    ("what should i pack".data,
     "**Essential Packing List:**\n\n- Travel documents (passport, ID, tickets)\n- Appropriate clothing for the climate\n- Comfortable walking shoes\n- Toiletries and medications\n- Phone, charger, and adapter\n- Copy of your itinerary\n- Travel insurance information\n\nFor your specific destination, also consider any special items based on planned activities.".data),
    ("best time to visit".data,
     "The best time to visit depends on your destination. Generally:\n\n- Consider shoulder seasons (spring/fall) for better prices and fewer crowds\n- Check seasonal weather patterns for your specific location\n- Be aware of local holidays or festivals that might affect your visit\n\nTell me your specific destination for more tailored advice.".data),
    ("transportation options".data,
     "**Common Transportation Options:**\n\n- Public transit (subway, bus, tram)\n- Taxis and rideshare apps\n- Rental cars\n- Bicycles\n- Walking (for smaller cities)\n- Tours and shuttles\n\nThe best option depends on your destination, budget, and comfort level. What\x27s your destination?".data) ]

/-- Exact-match lookup in a Python dict modelled as an insertion-ordered
association list. -/
def dictGet (cache : List (List Char × List Char)) (q : List Char) : Option (List Char) :=
  (cache.find? (fun p => p.1 == q)).map Prod.snd

/-- `st.session_state.cached_responses[prompt] = response` (dict
assignment): overwrite in place, or append a new entry. -/
def store : List (List Char × List Char) → List Char → List Char → List (List Char × List Char)
  | [], q, r => [(q, r)]
  | (k, v) :: t, q, r =>
    if k == q then (k, r) :: t
    else (k, v) :: store t q r

/-- `get_cached_response(query)` from `app.py` lines 258-269: exact match
in the session cache first, then the first case-insensitive keyword hit
in `COMMON_QUERIES`, else a miss. -/
def get_cached_response (cached_responses : List (List Char × List Char))
    (query : List Char) : Option (List Char) :=
  match dictGet cached_responses query with
  | some r => some r
  | none =>
    let query_lower := pyLower query
    match COMMON_QUERIES.find? (fun p => containsSub p.1 query_lower) with
    | some p => some p.2
    | none => none

/-- A conversation turn: role string paired with content string. -/
abbrev Turn := List Char × List Char

/-- The fixed system instruction prepended on every backend call
(`app.py` lines 281-298). -/
def system_prompt : String :=
  "You are a travel planning expert EXCLUSIVELY focused on creating travel itineraries.\nIMPORTANT: You MUST ONLY respond to queries about travel planning, itineraries, or destination information.\nFor ANY other topics (including technology, news, general knowledge, or non-travel questions):\n1. DO NOT provide any information\n2. POLITELY redirect the user to ask about travel planning\n3. REFUSE to engage with the query\n4. EXPLAIN that you are specifically designed only for travel planning\n\nFor travel queries:\n- Extract destination, days, and preferences from user input\n- Ask follow-up questions if needed\n- Generate detailed itineraries in markdown with daily activities, dining, and tips\n- Be concise and friendly\n\nRemember: You are STRICTLY LIMITED to travel planning assistance ONLY."

/-- The system turn injected fresh on every call. -/
def system_message : Turn := ("system".data, system_prompt.data)

/-- The `messages_to_send` assembly of `call_deepseek` (`app.py` lines
279-302): `messages[-4:] if len(messages) > 4 else messages`, then the
non-system turns of that slice, behind the fixed system instruction. -/
def call_deepseek_messages (messages : List Turn) : List Turn :=
  let relevant_messages :=
    if messages.length > 4 then messages.drop (messages.length - 4) else messages
  system_message :: relevant_messages.filter (fun m => m.1 != "system".data)

/-- `requests.post(...)` followed by `response.raise_for_status()`:
raises a `RequestException` (modelled as `Except.error`) exactly when the
transport fault oracle `netFails` marks the attempt; otherwise returns
the response (modelled by its attempt index). -/
def requests_post (netFails : Nat → Bool) (attempt : Nat) : Except Unit Nat :=
  bif netFails attempt then Except.error () else Except.ok attempt

/-- The body of `call_deepseek` around the network call (`app.py` lines
323-333): the `try`/`except requests.exceptions.RequestException` catches
every transport failure and returns `None`, so the body itself never
raises. -/
def call_deepseek_body (netFails : Nat → Bool) (attempt : Nat) : Except Unit (Option Nat) :=
  match requests_post netFails attempt with
  | Except.ok resp => Except.ok (some resp)
  | Except.error _ => Except.ok none

/-- Semantics of tenacity `@retry`: run the decorated body; only an
exception escaping the body triggers a retry, up to `rem` further
attempts; the pair's second component counts attempts actually made. -/
def tenacity_retry (body : Nat → Except Unit (Option Nat)) :
    Nat → Nat → Except Unit (Option Nat) × Nat
  | attempt, 0 => (body attempt, 1)
  | attempt, rem+1 =>
    match body attempt with
    | Except.ok v => (Except.ok v, 1)
    | Except.error _ =>
      let r := tenacity_retry body (attempt + 1) rem
      (r.1, r.2 + 1)

/-- `call_deepseek` under `@retry(stop=stop_after_attempt(3), wait=wait_fixed(2))`:
the first attempt plus at most two retries. -/
def call_deepseek_r (netFails : Nat → Bool) : Except Unit (Option Nat) × Nat :=
  tenacity_retry (call_deepseek_body netFails) 0 2

/-- What the stream decoder does with one event line. -/
inductive StreamAction where
  | skip
  | done
  | payload (s : List Char)
deriving DecidableEq

/-- Per-line step of `stream_text` (`app.py` lines 338-351): skip empty
lines and lines without the `data: ` prefix; otherwise remove every
occurrence of `"data: "` via `str.replace`, stop on the `[DONE]`
sentinel, and hand the remaining text to the JSON parser. -/
def stream_line (line : List Char) : StreamAction :=
  if line = [] then StreamAction.skip
  else if "data: ".data.isPrefixOf line then
    let data := pyReplace "data: ".data line
    if data = "[DONE]".data then StreamAction.done
    else StreamAction.payload data
  else StreamAction.skip

/-- `stream_text(response)` at the granularity the claims need: the
sequence of payload strings handed to `json.loads`, in order, stopping
at the sentinel (malformed payloads are skipped by the parser stage,
which is external). -/
def stream_text : List (List Char) → List (List Char)
  | [] => []
  | l :: rest =>
    match stream_line l with
    | StreamAction.skip => stream_text rest
    | StreamAction.done => []
    | StreamAction.payload s => s :: stream_text rest

/-- One VEVENT as emitted by `create_ics`; `begin_h` is the event start
measured in hours (so `timedelta(days=d, hours=h)` contributes
`24 * d + h`). -/
structure CalEvent where
  name : List Char
  begin_h : Int
  duration_h : Nat
  description : List Char
  location : List Char
deriving DecidableEq

/-- The session `itinerary_data` dict as consumed by `create_ics`:
`start_date` in hours since an arbitrary epoch, `None` until set. -/
structure ItineraryData where
  destination : List Char
  start_date : Option Int
  activities : List (Int × List Activity)
deriving DecidableEq

/-- `create_ics(itinerary_data)` from `app.py` lines 182-200: base date
`itinerary_data.get("start_date") or datetime.now()`, then one event per
activity with start `base + timedelta(days=day-1, hours=activity.hour)`.
`now` is the wall clock in hours; the `ics` library's event set is
modelled as the emission-ordered list (every event is distinct there
because each gets a fresh uid). -/
def create_ics (now : Int) (d : ItineraryData) : List CalEvent :=
  let start_date := d.start_date.getD now
  d.activities.flatMap (fun p =>
    p.2.map (fun a =>
      { name := a.name
        begin_h := start_date + ((p.1 - 1) * 24 + a.hour)
        duration_h := a.duration
        description := a.description
        location := a.location }))

/-- The end-to-end scenario input of the spec (§8). -/
def endToEndInput : List Char :=
  "Itinerary for Paris\n## Day 1: Arrival\n- 9:00 AM: Visit Eiffel Tower\n- 7:00 PM: Dinner at Le Jules Verne\n## Day 2: Exploration\n- 10:00 AM: Louvre Museum".data

/-- A seven-turn history whose fourth turn has the system role. -/
def historyWithSystemTurn : List Turn :=
  [("user".data, "a".data), ("user".data, "b".data), ("user".data, "c".data),
   ("system".data, "s".data), ("user".data, "d".data), ("user".data, "e".data),
   ("user".data, "f".data)]

/-- A five-turn history containing only user turns. -/
def fiveUserTurns : List Turn :=
  [("user".data, "a".data), ("user".data, "b".data), ("user".data, "c".data),
   ("user".data, "d".data), ("user".data, "e".data)]

/-- A two-day itinerary whose start date is still unset. -/
def sampleItinerary : ItineraryData :=
  { destination := "Rome".data
    start_date := none
    activities :=
      [(1, [{ name := "Walk".data, hour := 9, duration := 2,
              description := "Walk".data, location := "".data }]),
       (2, [{ name := "Museum".data, hour := 10, duration := 2,
              description := "Museum".data, location := "".data }])] }

/-- `pyReplaceAux` never lengthens the string. -/
theorem pyReplaceAux_length_le (pat : List Char) :
    ∀ (s : List Char) (skip : Nat), (pyReplaceAux pat skip s).length ≤ s.length := by
  intro s
  induction s with
  | nil => intro skip; simp [pyReplaceAux]
  | cons c rest ih =>
    intro skip
    cases skip with
    | succ k =>
      calc (pyReplaceAux pat k rest).length ≤ rest.length := ih k
        _ ≤ rest.length + 1 := Nat.le_succ _
    | zero =>
      rw [pyReplaceAux]
      split
      · calc (pyReplaceAux pat (pat.length - 1) rest).length ≤ rest.length := ih _
          _ ≤ rest.length + 1 := Nat.le_succ _
      · simpa using Nat.succ_le_succ (ih 0)

/-- Removing a nonempty pattern that occurs in `s` strictly shortens `s`. -/
theorem pyReplaceAux_length_lt (pat : List Char) (hpat : pat ≠ []) :
    ∀ (s : List Char), containsSub pat s = true → (pyReplaceAux pat 0 s).length < s.length := by
  intro s
  induction s with
  | nil =>
    intro h
    exfalso
    cases pat with
    | nil => exact hpat rfl
    | cons a as => simp [containsSub, List.isPrefixOf] at h
  | cons c rest ih =>
    intro h
    rw [containsSub] at h
    rw [pyReplaceAux]
    split
    · exact Nat.lt_succ_of_le (pyReplaceAux_length_le pat rest _)
    · rename_i hpre
      simp only [Bool.or_eq_true] at h
      rcases h with h | h
      · exact absurd h (by simp [hpre])
      · simpa using Nat.succ_lt_succ (ih h)

/-- Running down a pending skip consumes exactly the skipped characters. -/
theorem pyReplaceAux_skip (pat : List Char) :
    ∀ (l p : List Char), pyReplaceAux pat l.length (l ++ p) = pyReplaceAux pat 0 p := by
  intro l
  induction l with
  | nil => intro p; rfl
  | cons a l ih => intro p; simpa [pyReplaceAux] using ih p

/-- A list is a prefix of itself followed by anything. -/
theorem isPrefixOf_append_self : ∀ (l p : List Char), l.isPrefixOf (l ++ p) = true := by
  intro l
  induction l with
  | nil => intro p; simp [List.isPrefixOf]
  | cons a l ih => intro p; simp [List.isPrefixOf, ih p]

/-- `replace` consumes a leading occurrence of the pattern and continues. -/
theorem pyReplace_cancel (pat : List Char) (hpat : pat ≠ []) (p : List Char) :
    pyReplace pat (pat ++ p) = pyReplace pat p := by
  cases pat with
  | nil => exact absurd rfl hpat
  | cons a as =>
    show pyReplaceAux (a :: as) 0 (a :: (as ++ p)) = pyReplaceAux (a :: as) 0 p
    rw [pyReplaceAux,
      if_pos (show (a :: as).isPrefixOf (a :: (as ++ p)) = true from
        isPrefixOf_append_self (a :: as) p)]
    have hlen : (a :: as).length - 1 = as.length := by simp
    rw [hlen]
    exact pyReplaceAux_skip (a :: as) as p

/-- C10: the stream decoder removes every occurrence of `"data: "` (not
only the leading prefix) before the sentinel comparison and JSON parse:
for any event line `"data: " ++ p` whose payload `p` itself contains
`"data: "`, the text produced by the decoder differs from `p` (the
result of stripping only the leading prefix), so the decoder never hands
the plain prefix-stripped remainder to the JSON parser. -/
theorem C10_replace_all (p : List Char) (h : containsSub "data: ".data p = true) :
    pyReplace "data: ".data ("data: ".data ++ p) ≠ p ∧
    stream_line ("data: ".data ++ p) ≠ StreamAction.payload p := by
  have hne : pyReplace "data: ".data ("data: ".data ++ p) ≠ p := by
    rw [pyReplace_cancel "data: ".data (by decide) p]
    intro heq
    have hlt := pyReplaceAux_length_lt "data: ".data (by decide) p h
    unfold pyReplace at heq
    rw [heq] at hlt
    exact Nat.lt_irrefl _ hlt
  refine ⟨hne, ?_⟩
  unfold stream_line
  rw [if_neg (by simp : ¬("data: ".data ++ p = []))]
  rw [if_pos (isPrefixOf_append_self "data: ".data p)]
  show (if pyReplace "data: ".data ("data: ".data ++ p) = "[DONE]".data
      then StreamAction.done
      else StreamAction.payload (pyReplace "data: ".data ("data: ".data ++ p))) ≠
    StreamAction.payload p
  split
  · intro hc; cases hc
  · intro hc
    injection hc with h2
    exact hne h2

/-- C10 witness: the concrete event line `"data: hello data: world"`. -/
theorem C10_witness :
    pyReplace "data: ".data ("data: ".data ++ "hello data: world".data) ≠ "hello data: world".data ∧
    stream_line ("data: ".data ++ "hello data: world".data) ≠ StreamAction.payload "hello data: world".data :=
  C10_replace_all "hello data: world".data (by decide)

/-- Exact-match lookup after a dict write finds the written value. -/
theorem dictGet_store : ∀ (cache : List (List Char × List Char)) (q r : List Char),
    dictGet (store cache q r) q = some r := by
  intro cache q r
  induction cache with
  | nil => simp [store, dictGet, List.find?]
  | cons p t ih =>
    obtain ⟨k, v⟩ := p
    rw [store]
    split
    · rename_i hk
      simp [dictGet, List.find?, hk]
    · rename_i hk
      have hk' : (k == q) = false := by
        cases h' : (k == q) with
        | true => exact absurd h' hk
        | false => rfl
      simp only [dictGet, List.find?, hk']
      exact ih

/-- C6: after `store(q, r)` on the session cache, `get_cached_response(q)`
returns exactly `r` — the exact-match lookup runs before the canned
keyword table, for arbitrary cache contents, query and response. -/
theorem C6_store_then_lookup (cache : List (List Char × List Char)) (q r : List Char) :
    get_cached_response (store cache q r) q = some r := by
  unfold get_cached_response
  rw [dictGet_store]

/-- C3: evaluating `call_deepseek` under the fault pattern in which
attempts 1 and 2 raise `RequestException` and attempt 3 would succeed:
the call makes exactly one attempt and returns `None` — the `except`
block inside the function swallows the exception, so the tenacity
`@retry(stop=stop_after_attempt(3), wait=wait_fixed(2))` decorator never
observes a failure and never retries. -/
theorem C3_single_attempt :
    call_deepseek_r (fun k => decide (k < 2)) = (Except.ok none, 1) ∧
    (1 : Nat) ≠ 3 :=
  ⟨rfl, by decide⟩

/-- Under every fault pattern, `call_deepseek` makes exactly one attempt:
its result is determined by the first attempt alone. -/
theorem call_deepseek_attempts_one (netFails : Nat → Bool) :
    (call_deepseek_r netFails).2 = 1 ∧
    (call_deepseek_r netFails).1 = Except.ok (bif netFails 0 then none else some 0) := by
  cases hf : netFails 0 <;>
    simp [call_deepseek_r, tenacity_retry, call_deepseek_body, requests_post, hf]

/-- C9: when `start_date` is unset, `create_ics` behaves exactly as if
`start_date` were the current wall-clock time `now`, emitting one event
per activity with start `now + (day - 1) * 24 + hour` (in hours) — it
neither fails nor produces an empty calendar. -/
theorem C9_start_date_fallback (now : Int) (d : ItineraryData)
    (h : d.start_date = none) :
    create_ics now d = create_ics now { d with start_date := some now } ∧
    create_ics now d =
      d.activities.flatMap (fun p =>
        p.2.map (fun a =>
          { name := a.name, begin_h := now + ((p.1 - 1) * 24 + a.hour),
            duration_h := a.duration, description := a.description,
            location := a.location })) ∧
    (create_ics now d).length = (d.activities.map (fun p => p.2.length)).sum := by
  unfold create_ics
  rw [h]
  refine ⟨rfl, rfl, ?_⟩
  simp [List.length_flatMap, Function.comp_def]

/-- The destination step never touches the activities dict. -/
theorem destStep_activities (data : ItinData) (line : List Char) :
    (destStep data line).activities = data.activities := by
  unfold destStep
  split
  · dsimp only
    split <;> rfl
  · rfl

/-- A line with neither day-heading prefix parses no day number. -/
theorem headingNum_none_of_no_prefix (line : List Char)
    (h1 : "# Day".data.isPrefixOf line = false)
    (h2 : "## Day".data.isPrefixOf line = false) :
    headingNum line = none := by
  unfold headingNum
  rw [h1, h2]
  rfl

/-- With `current_day = 0` the activity step is a no-op. -/
theorem actStep_zero (data : ItinData) (line : List Char) :
    actStep data 0 line = data := by
  unfold actStep
  have hc : (("- ".data.isPrefixOf line || "* ".data.isPrefixOf line) &&
      decide ((0 : Int) < 0)) = false := by simp
  rw [hc]
  rfl

/-- If no processed line is a recognized day heading, the fold leaves
the activities dict and the day context untouched. -/
theorem fold_no_heading :
    ∀ (lines : List (List Char)) (data : ItinData),
      (∀ l ∈ lines, headingNum l = none) →
      (lines.foldl processLine (data, 0)).1.activities = data.activities ∧
      (lines.foldl processLine (data, 0)).2 = 0 := by
  intro lines
  induction lines with
  | nil => intro data _; exact ⟨rfl, rfl⟩
  | cons l rest ih =>
    intro data h
    have hl : headingNum l = none := h l (List.mem_cons_self _ _)
    have hstate : processLine (data, 0) l = (destStep data l, 0) := by
      simp [processLine, dayStep, hl, actStep_zero]
    rw [List.foldl_cons, hstate]
    have hrec := ih (destStep data l) (fun m hm => h m (List.mem_cons_of_mem _ hm))
    exact ⟨hrec.1.trans (destStep_activities data l), hrec.2⟩

/-- C8: for every markdown input none of whose lines starts with
`# Day` or `## Day`, the extractor returns an empty days mapping (and,
being a total Lean function, it never fails). -/
theorem C8_no_day_header (text : List Char)
    (h : ∀ l ∈ pySplit "\n".data text,
      "# Day".data.isPrefixOf l = false ∧ "## Day".data.isPrefixOf l = false) :
    (extract_itinerary_data text).activities = [] := by
  unfold extract_itinerary_data
  exact (fold_no_heading (pySplit "\n".data text) ⟨none, []⟩
    (fun l hl => headingNum_none_of_no_prefix l (h l hl).1 (h l hl).2)).1

/-- C8 witness: a concrete input with no day-heading line. -/
theorem C8_witness :
    (extract_itinerary_data "Itinerary for Rome\nHello\nDay 1: x".data).activities = [] :=
  C8_no_day_header "Itinerary for Rome\nHello\nDay 1: x".data (by decide)

/-- `setdefault(...).append` introduces no key other than the target day. -/
theorem appendAct_keys :
    ∀ (l : List (Int × List Activity)) (d : Int) (a : Activity) (k : Int),
      k ∈ (appendAct l d a).map Prod.fst → k ∈ l.map Prod.fst ∨ k = d := by
  intro l
  induction l with
  | nil =>
    intro d a k hk
    simp [appendAct] at hk
    exact Or.inr hk
  | cons p t ih =>
    intro d a k hk
    obtain ⟨k0, v⟩ := p
    rw [appendAct] at hk
    split at hk
    · simp only [List.map_cons, List.mem_cons] at hk
      rcases hk with hk | hk
      · left; simp [hk]
      · left; simp only [List.map_cons, List.mem_cons]; exact Or.inr hk
    · simp only [List.map_cons, List.mem_cons] at hk
      rcases hk with hk | hk
      · left; simp [hk]
      · rcases ih d a k hk with h | h
        · left; simp only [List.map_cons, List.mem_cons]; exact Or.inr h
        · exact Or.inr h

/-- `setdefault(...).append` preserves the invariant that nonempty
entries have keys at least 1, provided the target day is at least 1. -/
theorem appendAct_ge_one :
    ∀ (l : List (Int × List Activity)) (d : Int) (a : Activity),
      (∀ q ∈ l, q.2 ≠ [] → 1 ≤ q.1) → 1 ≤ d →
      ∀ q ∈ appendAct l d a, q.2 ≠ [] → 1 ≤ q.1 := by
  intro l
  induction l with
  | nil =>
    intro d a _ hd q hq _
    simp [appendAct] at hq
    rw [hq]
    exact hd
  | cons p t ih =>
    intro d a hl hd q hq
    obtain ⟨k0, v⟩ := p
    rw [appendAct] at hq
    split at hq
    · rename_i hk
      rcases List.mem_cons.mp hq with h | h
      · intro _
        rw [h]
        have : k0 = d := by simpa using hk
        simpa [this] using hd
      · exact hl q (List.mem_cons_of_mem _ h)
    · rcases List.mem_cons.mp hq with h | h
      · rw [h]; exact hl (k0, v) (List.mem_cons_self _ _)
      · exact ih d a (fun q' hq' => hl q' (List.mem_cons_of_mem _ hq')) hd q h

/-- Registering a day introduces no key other than that day. -/
theorem registerDay_keys (data : ItinData) (d : Int) (k : Int)
    (hk : k ∈ (registerDay data d).activities.map Prod.fst) :
    k ∈ data.activities.map Prod.fst ∨ k = d := by
  unfold registerDay at hk
  split at hk
  · exact Or.inl hk
  · simp only [List.map_append] at hk
    rcases List.mem_append.mp hk with h | h
    · exact Or.inl h
    · right; simpa using h

/-- Entries after registering a day: an old entry or the fresh empty one. -/
theorem registerDay_mem (data : ItinData) (d : Int) (q : Int × List Activity)
    (hq : q ∈ (registerDay data d).activities) :
    q ∈ data.activities ∨ q = (d, []) := by
  unfold registerDay at hq
  split at hq
  · exact Or.inl hq
  · rcases List.mem_append.mp hq with h | h
    · exact Or.inl h
    · right; simpa using h

/-- The activity step either leaves the dict unchanged or appends one
activity to the current day, which is then positive. -/
theorem actStep_activities_cases (data : ItinData) (cur : Int) (line : List Char) :
    (actStep data cur line).activities = data.activities ∨
    (0 < cur ∧ ∃ a, (actStep data cur line).activities = appendAct data.activities cur a) := by
  unfold actStep
  split
  · rename_i hcond
    have hcur : 0 < cur := by
      have h2 := (Bool.and_eq_true _ _).mp hcond
      exact of_decide_eq_true h2.2
    dsimp only
    split
    · exact Or.inr ⟨hcur, _, rfl⟩
    · exact Or.inl rfl
  · exact Or.inl rfl

/-- Keys after the activity step: an old key or the (positive) current day. -/
theorem actStep_keys (data : ItinData) (cur : Int) (line : List Char) (k : Int)
    (hk : k ∈ (actStep data cur line).activities.map Prod.fst) :
    k ∈ data.activities.map Prod.fst ∨ (0 < cur ∧ k = cur) := by
  rcases actStep_activities_cases data cur line with h | ⟨hcur, a, ha⟩
  · rw [h] at hk; exact Or.inl hk
  · rw [ha] at hk
    rcases appendAct_keys data.activities cur a k hk with h | h
    · exact Or.inl h
    · exact Or.inr ⟨hcur, h⟩

/-- The activity step preserves the nonempty-entry key invariant. -/
theorem actStep_ge_one (data : ItinData) (cur : Int) (line : List Char)
    (h : ∀ q ∈ data.activities, q.2 ≠ [] → 1 ≤ q.1) :
    ∀ q ∈ (actStep data cur line).activities, q.2 ≠ [] → 1 ≤ q.1 := by
  rcases actStep_activities_cases data cur line with he | ⟨hcur, a, ha⟩
  · rw [he]; exact h
  · rw [ha]
    exact appendAct_ge_one data.activities cur a h (by omega)

/-- The day step preserves the nonempty-entry key invariant (it only
adds empty entries). -/
theorem dayStep_ge_one (data : ItinData) (cur : Int) (line : List Char)
    (h : ∀ q ∈ data.activities, q.2 ≠ [] → 1 ≤ q.1) :
    ∀ q ∈ (dayStep data cur line).1.activities, q.2 ≠ [] → 1 ≤ q.1 := by
  unfold dayStep
  split
  · intro q hq hne
    rcases registerDay_mem data _ q hq with h1 | h1
    · exact h q h1 hne
    · rw [h1] at hne; exact absurd rfl hne
  · exact h

/-- `headingDays` over a cons whose head parses. -/
theorem headingDays_cons_some {l : List Char} {d : Int} (rest : List (List Char))
    (hH : headingNum l = some d) :
    headingDays (l :: rest) = d :: headingDays rest := by
  unfold headingDays
  rw [List.filterMap_cons, hH]

/-- `headingDays` over a cons whose head does not parse. -/
theorem headingDays_cons_none {l : List Char} (rest : List (List Char))
    (hH : headingNum l = none) :
    headingDays (l :: rest) = headingDays rest := by
  unfold headingDays
  rw [List.filterMap_cons, hH]

/-- Every key produced by the fold is an initial key, the (positive)
initial day context, or a day number parsed from a heading line. -/
theorem fold_keys :
    ∀ (lines : List (List Char)) (data : ItinData) (cur : Int) (k : Int),
      k ∈ (lines.foldl processLine (data, cur)).1.activities.map Prod.fst →
      k ∈ data.activities.map Prod.fst ∨ (0 < cur ∧ k = cur) ∨ k ∈ headingDays lines := by
  intro lines
  induction lines with
  | nil => intro data cur k hk; exact Or.inl hk
  | cons l rest ih =>
    intro data cur k hk
    rw [List.foldl_cons] at hk
    cases hH : headingNum l with
    | some d =>
      have hstate : processLine (data, cur) l =
          (actStep (registerDay (destStep data l) d) d l, d) := by
        simp [processLine, dayStep, hH]
      rw [hstate] at hk
      rcases ih _ _ k hk with h1 | h1 | h1
      · rcases actStep_keys _ _ _ _ h1 with h2 | h2
        · rcases registerDay_keys _ _ _ h2 with h3 | h3
          · left; rwa [destStep_activities] at h3
          · right; right; rw [headingDays_cons_some rest hH, h3]
            exact List.mem_cons_self _ _
        · right; right; rw [headingDays_cons_some rest hH, h2.2]
          exact List.mem_cons_self _ _
      · right; right; rw [headingDays_cons_some rest hH, h1.2]
        exact List.mem_cons_self _ _
      · right; right; rw [headingDays_cons_some rest hH]
        exact List.mem_cons_of_mem _ h1
    | none =>
      have hstate : processLine (data, cur) l = (actStep (destStep data l) cur l, cur) := by
        simp [processLine, dayStep, hH]
      rw [hstate] at hk
      rcases ih _ _ k hk with h1 | h1 | h1
      · rcases actStep_keys _ _ _ _ h1 with h2 | h2
        · left; rwa [destStep_activities] at h2
        · right; left; exact h2
      · right; left; exact h1
      · right; right; rwa [headingDays_cons_none rest hH]

/-- The fold preserves the nonempty-entry key invariant. -/
theorem fold_ge_one :
    ∀ (lines : List (List Char)) (data : ItinData) (cur : Int),
      (∀ q ∈ data.activities, q.2 ≠ [] → 1 ≤ q.1) →
      ∀ q ∈ (lines.foldl processLine (data, cur)).1.activities, q.2 ≠ [] → 1 ≤ q.1 := by
  intro lines
  induction lines with
  | nil => intro data cur h; exact h
  | cons l rest ih =>
    intro data cur h
    rw [List.foldl_cons]
    have h1 : ∀ q ∈ (destStep data l).activities, q.2 ≠ [] → 1 ≤ q.1 := by
      rw [destStep_activities]; exact h
    have h2 := dayStep_ge_one (destStep data l) cur l h1
    have h3 := actStep_ge_one (dayStep (destStep data l) cur l).1
      (dayStep (destStep data l) cur l).2 l h2
    exact ih _ _ h3

/-- C4 amended: every key of the days mapping was parsed from a
recognized day-heading line of the input (so activities only attach to
introduced days), and every day whose activity list is nonempty has
number at least 1; keys below 1 can occur, but only with empty lists. -/
theorem C4_day_keys (text : List Char) (p : Int × List Activity)
    (hp : p ∈ (extract_itinerary_data text).activities) :
    p.1 ∈ headingDays (pySplit "\n".data text) ∧ (p.2 ≠ [] → 1 ≤ p.1) := by
  unfold extract_itinerary_data at hp
  constructor
  · have hk : p.1 ∈ ((pySplit "\n".data text).foldl processLine
        (⟨none, []⟩, 0)).1.activities.map Prod.fst :=
      List.mem_map_of_mem Prod.fst hp
    rcases fold_keys _ _ _ _ hk with h | h | h
    · simp at h
    · exact absurd h.1 (by decide)
    · exact h
  · exact fold_ge_one _ _ _ (by intro q hq; simp at hq) p hp

/-- C4 counterexample: `# Day 0:` and `# Day -3:` headings introduce
day keys 0 and -3, both below 1, refuting the claim that every key of
the days mapping is at least 1. -/
theorem C4_counterexample :
    (extract_itinerary_data "# Day 0: Arrival\n# Day -3: Ghost".data).activities.map Prod.fst
      = [0, -3] ∧
    ¬ (1 ≤ (0 : Int)) ∧ ¬ (1 ≤ (-3 : Int)) := by decide

/-- C4 witness: the day key 2 of `# Day 2: Trip`. -/
theorem C4_witness :
    ((2 : Int) ∈ headingDays (pySplit "\n".data "# Day 2: Trip".data)) ∧
    (([] : List Activity) ≠ [] → 1 ≤ (2 : Int)) :=
  C4_day_keys "# Day 2: Trip".data (2, []) (by decide)

/-- C1: evaluation of the extractor on the end-to-end input
`"Itinerary for Paris\n## Day 1: Arrival\n- 9:00 AM: Visit Eiffel Tower\n- 7:00 PM: Dinner at Le Jules Verne\n## Day 2: Exploration\n- 10:00 AM: Louvre Museum"`:
the destination is `Paris` and the day keys are 1 and 2 with activities
in order of appearance, but every hour is the default 9 — the evening
activity claimed at 19 and the morning one claimed at 10 both come out
as 9, and the `00 AM:` / `00 PM:` fragments leak into the activity
names, because the activity text is split at its first colon, so the
time portion (`"9"`, `"7"`, `"10"`) never contains `AM`/`PM`. -/
theorem C1_extract_eval :
    extract_itinerary_data endToEndInput =
      { destination := some "Paris".data,
        activities := [
          (1, [{ name := "00 AM: Visit Eiffel Tower".data, hour := 9, duration := 2,
                 description := "00 AM: Visit Eiffel Tower".data, location := "Paris".data },
               { name := "00 PM: Dinner at Le Jules Verne".data, hour := 9, duration := 2,
                 description := "00 PM: Dinner at Le Jules Verne".data, location := "Paris".data }]),
          (2, [{ name := "00 AM: Louvre Museum".data, hour := 9, duration := 2,
                 description := "00 AM: Louvre Museum".data, location := "Paris".data }])] } ∧
    (dayActs (extract_itinerary_data endToEndInput) 1).map Activity.hour ≠ [9, 19] ∧
    (dayActs (extract_itinerary_data endToEndInput) 2).map Activity.hour ≠ [10] := by
  decide

/-- C2: evaluation of the hour parser through the extractor.
`- 2:00 PM: Museum` yields the default hour 9, not 14: the time portion
before the first colon is just `"2"`, which contains no `AM`/`PM`.
`- 2 PM: Museum` (no colon inside the time) does yield 14, showing the
`+12` path; `- 9:00 AM: Breakfast` yields 9 (by default, not by
parsing); `- Afternoon: Museum` yields the default 9. -/
theorem C2_time_parse_eval :
    (dayActs (extract_itinerary_data "## Day 1: Plan\n- 2:00 PM: Museum".data) 1).map
      Activity.hour = [9] ∧
    (9 : Int) ≠ 14 ∧
    (dayActs (extract_itinerary_data "## Day 1: Plan\n- 2 PM: Museum".data) 1).map
      Activity.hour = [14] ∧
    (dayActs (extract_itinerary_data "## Day 1: Plan\n- 9:00 AM: Breakfast".data) 1).map
      Activity.hour = [9] ∧
    (dayActs (extract_itinerary_data "## Day 1: Plan\n- Afternoon: Museum".data) 1).map
      Activity.hour = [9] := by
  decide

/-- C5 counterexample: the activity line `- 12 PM: Lunch` produces hour
24, outside the claimed range 0 to 23 (`12 + 12` with no noon special
case). -/
theorem C5_counterexample :
    (dayActs (extract_itinerary_data "## Day 1: Plan\n- 12 PM: Lunch".data) 1).map
      Activity.hour = [24] ∧
    ¬ ((0 : Int) ≤ 24 ∧ (24 : Int) ≤ 23) := by
  decide

/-- C5 amended: the hour is the default 9, or the integer parsed before
the `AM`/`PM` marker (plus 12 for `PM`), and it can fall outside 0-23:
`- 12 PM: Lunch` yields 24 and `- 99 AM: Party` yields 99, while
`- 12:00 PM: Lunch` yields the default 9 (its time portion `"12"` has
no marker). -/
theorem C5_hour_examples :
    (dayActs (extract_itinerary_data "## Day 1: Plan\n- 12 PM: Lunch".data) 1).map
      Activity.hour = [24] ∧
    (dayActs (extract_itinerary_data "## Day 1: Plan\n- 99 AM: Party".data) 1).map
      Activity.hour = [99] ∧
    (dayActs (extract_itinerary_data "## Day 1: Plan\n- 12:00 PM: Lunch".data) 1).map
      Activity.hour = [9] := by
  decide

/-- C7 counterexample: on a seven-turn history whose fourth turn is a
system turn, the filtered history has 6 non-system turns (at least 4),
yet only 3 non-system turns are sent — the code slices the last 4 turns
first and filters afterwards. -/
theorem C7_counterexample :
    4 ≤ (historyWithSystemTurn.filter (fun m => m.1 != "system".data)).length ∧
    ((call_deepseek_messages historyWithSystemTurn).filter
      (fun m => m.1 != "system".data)).length = 3 ∧
    (3 : Nat) ≠ 4 := by
  decide

/-- C7 amended: the sequence sent is the fixed system instruction
followed by the non-system turns among the most recent 4 turns of the
history; when the history itself contains no system-role turns this is
exactly the instruction followed by the most recent 4 turns of the
filtered history, and exactly 4 non-system turns are sent whenever such
a history has at least 4 turns. -/
theorem C7_last_four_then_filter (messages : List Turn)
    (h : ∀ m ∈ messages, m.1 ≠ "system".data) :
    call_deepseek_messages messages =
      system_message ::
        (if messages.length > 4 then messages.drop (messages.length - 4) else messages) ∧
    (4 ≤ messages.length →
      ((call_deepseek_messages messages).filter (fun m => m.1 != "system".data)).length = 4) := by
  have hfil : ∀ (l : List Turn), (∀ m ∈ l, m ∈ messages) →
      l.filter (fun m => m.1 != "system".data) = l := by
    intro l hl
    apply List.filter_eq_self.mpr
    intro a ha
    simpa [bne_iff_ne] using h a (hl a ha)
  have hrel : (if messages.length > 4 then messages.drop (messages.length - 4)
        else messages).filter (fun m => m.1 != "system".data) =
      (if messages.length > 4 then messages.drop (messages.length - 4) else messages) := by
    split
    · exact hfil _ (fun m hm => List.drop_subset _ _ hm)
    · exact hfil _ (fun m hm => hm)
  constructor
  · show system_message ::
        ((if messages.length > 4 then messages.drop (messages.length - 4)
          else messages).filter (fun m => m.1 != "system".data)) =
      system_message ::
        (if messages.length > 4 then messages.drop (messages.length - 4) else messages)
    rw [hrel]
  · intro hlen
    show ((system_message ::
        ((if messages.length > 4 then messages.drop (messages.length - 4)
          else messages).filter (fun m => m.1 != "system".data))).filter
      (fun m => m.1 != "system".data)).length = 4
    rw [hrel]
    rw [List.filter_cons_of_neg (by decide), hrel]
    split
    · rename_i hgt
      rw [List.length_drop]
      omega
    · rename_i hle
      omega

/-- C7 witness: a five-turn all-user history. -/
theorem C7_witness :
    call_deepseek_messages fiveUserTurns =
      system_message ::
        (if fiveUserTurns.length > 4 then fiveUserTurns.drop (fiveUserTurns.length - 4)
         else fiveUserTurns) ∧
    (4 ≤ fiveUserTurns.length →
      ((call_deepseek_messages fiveUserTurns).filter
        (fun m => m.1 != "system".data)).length = 4) :=
  C7_last_four_then_filter fiveUserTurns (by decide)

/-- C9 witness: the sample itinerary with unset start date at wall
clock 100. -/
theorem C9_witness :
    create_ics 100 sampleItinerary =
      create_ics 100 { sampleItinerary with start_date := some 100 } ∧
    create_ics 100 sampleItinerary =
      sampleItinerary.activities.flatMap (fun p =>
        p.2.map (fun a =>
          { name := a.name, begin_h := 100 + ((p.1 - 1) * 24 + a.hour),
            duration_h := a.duration, description := a.description,
            location := a.location })) ∧
    (create_ics 100 sampleItinerary).length =
      (sampleItinerary.activities.map (fun p => p.2.length)).sum :=
  C9_start_date_fallback 100 sampleItinerary rfl
